import Mathlib

/-!
# Shallow embedding of the `parz` parser-combinator library

Byte buffers are modelled as `List Nat` (each element a byte value), and a
Rust parser of type `Fn(&[u8]) -> (&[u8], Result<O, E>)` becomes a Lean
function `Input → Option (Input × Except E O)`.  The outer `Option` models
Rust panics: `slice::split_at(n)` panics when `n` exceeds the slice length,
and a panic anywhere aborts the whole call, so `none` means "the call
faulted instead of returning a step".  Every other construct is a direct
transcription of `src/lib.rs`.

Floating-point decoders (`f32l`, `f32b`, `f64l`, `f64b`) reinterpret bytes
bitwise (`f32::from_le_bytes` etc.), so a float value is modelled by its
IEEE-754 bit pattern, a `Nat` below `2^32` resp. `2^64`; with that
representation they coincide with the unsigned decoders of the same width
up to the error type.
-/

namespace Parz

/-- A single byte value (in the real code, `u8`, hence `< 256`). -/
abbrev Byte := Nat

/-- A borrowed byte slice `&[u8]`. -/
abbrev Input := List Byte

/-- Rust `Step<'a, Output, Error> = (&'a [u8], Result<Output, Error>)`. -/
abbrev Step (Output Error : Type) : Type := Input × Except Error Output

/-- A parser.  `none` models a Rust panic (out-of-bounds slicing), which is
not a `Step` at all: the process aborts before the function returns. -/
abbrev Parser (Output Error : Type) : Type := Input → Option (Step Output Error)

/-- Rust `slice::split_at(n)`: returns the two halves, or panics (`none`)
when `n` exceeds the slice length. -/
def splitAt? (n : Nat) (l : Input) : Option (Input × Input) :=
  if n ≤ l.length then some (l.take n, l.drop n) else none

/-- Error of the `byte` primitive (`pub struct ByteError;`). -/
structure ByteError where

/-- The `byte` primitive: `input.split_first()`. -/
def byte : Parser Byte ByteError := fun input =>
  match input with
  | b :: rest => some (rest, Except.ok b)
  | [] => some (input, Except.error ⟨⟩)

/-- Error of `take`, carrying the slice where the error happened. -/
structure TakeError where
  loc : Input

/-- The `take(count)` primitive.  Note the transcription order: the code
calls `input.split_at(count)` (which panics when `count > input.len()`)
*before* the `out.len() == 0 && count != 0` error check, and the shadowed
`input` in the error branch is the post-split remainder. -/
def take (count : Nat) : Parser Input TakeError := fun input =>
  match splitAt? count input with
  | none => none
  | some (out, rest) =>
    if out.length = 0 ∧ count ≠ 0 then some (rest, Except.error ⟨rest⟩)
    else some (rest, Except.ok out)

/-- Composite error of `seq`: the slice at the failure point, the 0-based
iteration that failed, and the child's error. -/
structure SeqError (ChildError : Type) where
  atInput : Input
  step : Nat
  child_error : ChildError

/-- The loop body of `seq`: `n` iterations remain, `step` is the current
0-based iteration, `before` is the input from before the first iteration,
`out` is the accumulator (`Vec::push` order). -/
def seqGo {Output ChildError : Type} (child : Parser Output ChildError)
    (before : Input) :
    Nat → Nat → Input → List Output → Option (Step (List Output) (SeqError ChildError))
  | 0, _, input, out => some (input, Except.ok out)
  | n + 1, step, input, out =>
    match child input with
    | none => none
    | some (rest, Except.ok x) => seqGo child before n (step + 1) rest (out ++ [x])
    | some (_, Except.error e) => some (before, Except.error ⟨input, step, e⟩)

/-- The `seq(count, child)` combinator: run `child` exactly `count` times. -/
def seq {Output ChildError : Type} (count : Nat) (child : Parser Output ChildError) :
    Parser (List Output) (SeqError ChildError) := fun input =>
  seqGo child input count 0 input []

/-- Error of `opt` (`pub enum OptError {}`): uninhabited. -/
inductive OptError

/-- The `opt(child)` combinator: turn a child failure into `Ok(None)` at the
pre-attempt input. -/
def opt {Output Error : Type} (child : Parser Output Error) :
    Parser (Option Output) OptError := fun input =>
  match child input with
  | none => none
  | some (rest, Except.ok x) => some (rest, Except.ok (some x))
  | some (_, Except.error _) => some (input, Except.ok none)

/-- Error of `finish`, carrying the slice where the error happened. -/
structure FinishError where
  loc : Input

/-- The `finish(child)` combinator.  The caller's `Error` type must convert
from both the child's error and `FinishError`; that pair of conversions is
modelled by the sum type.  Note the transcription: the code matches on
`input.len()` — the length of the *original* input — not on the length of
the child's remainder `rest`. -/
def finish {Output ChildError : Type} (child : Parser Output ChildError) :
    Parser Output (Sum ChildError FinishError) := fun input =>
  match child input with
  | none => none
  | some (rest, Except.ok x) =>
    match input.length with
    | 0 => some (rest, Except.ok x)
    | _ + 1 => some (input, Except.error (Sum.inr ⟨input⟩))
  | some (_, Except.error e) => some (input, Except.error (Sum.inl e))

/-- Error of `tag`, carrying the slice where the error happened. -/
structure TagError where
  loc : Input

/-- Rust `impl From<TakeError> for TagError`. -/
def tagErrorOfTakeError (e : TakeError) : TagError := ⟨e.loc⟩

/-- The `tag(key)` combinator: `take(key.len())` then byte-for-byte
comparison; both failure arms return the pre-attempt input. -/
def tag (key : Input) : Parser Input TagError := fun input =>
  match take key.length input with
  | none => none
  | some (rest, Except.ok result) =>
    if result = key then some (rest, Except.ok result)
    else some (input, Except.error ⟨input⟩)
  | some (_, Except.error e) => some (input, Except.error (tagErrorOfTakeError e))

/-- The `or(one, two)` combinator.  `one` always runs; `two` runs from
`one`'s remainder when `one` succeeded, from the original input otherwise;
the step returned is `two`'s remainder together with
`Ok((result1.ok(), result2.ok()))` — the error type parameter (`Error2` in
the Rust signature) is never used to build a value. -/
def or {O1 O2 E1 E2 : Type} (one : Parser O1 E1) (two : Parser O2 E2) :
    Parser (Option O1 × Option O2) E2 := fun input =>
  match one input with
  | none => none
  | some (rest, result1) =>
    match two (match result1 with | Except.ok _ => rest | Except.error _ => input) with
    | none => none
    | some (rest2, result2) =>
      some (rest2, Except.ok (result1.toOption, result2.toOption))

/-- The `and(one, two)` combinator.  The caller's `Error` type converts from
both stages' errors; the sum records which stage failed. -/
def and {O1 O2 E1 E2 : Type} (one : Parser O1 E1) (two : Parser O2 E2) :
    Parser (O1 × O2) (Sum E1 E2) := fun input =>
  match one input with
  | none => none
  | some (rest, Except.ok x) =>
    match two rest with
    | none => none
    | some (rest2, Except.ok y) => some (rest2, Except.ok (x, y))
    | some (_, Except.error e) => some (input, Except.error (Sum.inr e))
  | some (_, Except.error e) => some (input, Except.error (Sum.inl e))

/-- Little-endian value of a byte list (`from_le_bytes` on the listed
bytes): the head is the least significant byte. -/
def fromLeBytes : Input → Nat
  | [] => 0
  | b :: rest => b + 256 * fromLeBytes rest

/-- Big-endian value of a byte list (`from_be_bytes`): the head is the most
significant byte. -/
def fromBeBytes (l : Input) : Nat := fromLeBytes l.reverse

/-- Two's-complement reading of a `bits`-wide raw value, as done by the
signed `from_le_bytes`/`from_be_bytes`. -/
def toSigned (bits : Nat) (n : Nat) : Int :=
  if n < 2 ^ (bits - 1) then (n : Int) else (n : Int) - 2 ^ bits

/-- Body of the `num_impl!` macro: `input.split_at(size_of::<T>())` (which
panics on short input), then `out.try_into()` (an array-conversion that
fails exactly when `out.len() != size`), then the byte-order conversion. -/
def numParse {α E : Type} (size : Nat) (conv : Input → α) (mkErr : Input → E) :
    Parser α E := fun input =>
  match splitAt? size input with
  | none => none
  | some (out, rest) =>
    if out.length = size then some (rest, Except.ok (conv out))
    else some (input, Except.error (mkErr input))

structure U16LError where loc : Input

structure I16LError where loc : Input

structure U16BError where loc : Input

structure I16BError where loc : Input

structure U32LError where loc : Input

structure I32LError where loc : Input

structure U32BError where loc : Input

structure I32BError where loc : Input

structure U64LError where loc : Input

structure I64LError where loc : Input

structure U64BError where loc : Input

structure I64BError where loc : Input

structure U128LError where loc : Input

structure I128LError where loc : Input

structure U128BError where loc : Input

structure I128BError where loc : Input

structure F32LError where loc : Input

structure F32BError where loc : Input

structure F64LError where loc : Input

structure F64BError where loc : Input

/-- Parse unsigned 16-bit little-endian integer. -/
def u16l : Parser Nat U16LError := numParse 2 fromLeBytes U16LError.mk

/-- Parse signed 16-bit little-endian integer. -/
def i16l : Parser Int I16LError :=
  numParse 2 (fun out => toSigned 16 (fromLeBytes out)) I16LError.mk

/-- Parse unsigned 16-bit big-endian integer. -/
def u16b : Parser Nat U16BError := numParse 2 fromBeBytes U16BError.mk

/-- Parse signed 16-bit big-endian integer. -/
def i16b : Parser Int I16BError :=
  numParse 2 (fun out => toSigned 16 (fromBeBytes out)) I16BError.mk

/-- Parse unsigned 32-bit little-endian integer. -/
def u32l : Parser Nat U32LError := numParse 4 fromLeBytes U32LError.mk

/-- Parse signed 32-bit little-endian integer. -/
def i32l : Parser Int I32LError :=
  numParse 4 (fun out => toSigned 32 (fromLeBytes out)) I32LError.mk

/-- Parse unsigned 32-bit big-endian integer. -/
def u32b : Parser Nat U32BError := numParse 4 fromBeBytes U32BError.mk

/-- Parse signed 32-bit big-endian integer. -/
def i32b : Parser Int I32BError :=
  numParse 4 (fun out => toSigned 32 (fromBeBytes out)) I32BError.mk

/-- Parse unsigned 64-bit little-endian integer. -/
def u64l : Parser Nat U64LError := numParse 8 fromLeBytes U64LError.mk

/-- Parse signed 64-bit little-endian integer. -/
def i64l : Parser Int I64LError :=
  numParse 8 (fun out => toSigned 64 (fromLeBytes out)) I64LError.mk

/-- Parse unsigned 64-bit big-endian integer. -/
def u64b : Parser Nat U64BError := numParse 8 fromBeBytes U64BError.mk

/-- Parse signed 64-bit big-endian integer. -/
def i64b : Parser Int I64BError :=
  numParse 8 (fun out => toSigned 64 (fromBeBytes out)) I64BError.mk

/-- Parse unsigned 128-bit little-endian integer. -/
def u128l : Parser Nat U128LError := numParse 16 fromLeBytes U128LError.mk

/-- Parse signed 128-bit little-endian integer. -/
def i128l : Parser Int I128LError :=
  numParse 16 (fun out => toSigned 128 (fromLeBytes out)) I128LError.mk

/-- Parse unsigned 128-bit big-endian integer. -/
def u128b : Parser Nat U128BError := numParse 16 fromBeBytes U128BError.mk

/-- Parse signed 128-bit big-endian integer. -/
def i128b : Parser Int I128BError :=
  numParse 16 (fun out => toSigned 128 (fromBeBytes out)) I128BError.mk

/-- Parse 32-bit little-endian float (value as IEEE-754 bit pattern). -/
def f32l : Parser Nat F32LError := numParse 4 fromLeBytes F32LError.mk

/-- Parse 32-bit big-endian float (value as IEEE-754 bit pattern). -/
def f32b : Parser Nat F32BError := numParse 4 fromBeBytes F32BError.mk

/-- Parse 64-bit little-endian float (value as IEEE-754 bit pattern). -/
def f64l : Parser Nat F64LError := numParse 8 fromLeBytes F64LError.mk

/-- Parse 64-bit big-endian float (value as IEEE-754 bit pattern). -/
def f64b : Parser Nat F64BError := numParse 8 fromBeBytes F64BError.mk

/-- Little-endian encoding of an unsigned value into `w` bytes
(`to_le_bytes`). -/
def toLeBytes : Nat → Nat → Input
  | 0, _ => []
  | w + 1, v => (v % 256) :: toLeBytes w (v / 256)

/-- Big-endian encoding of an unsigned value into `w` bytes
(`to_be_bytes`). -/
def toBeBytes (w v : Nat) : Input := (toLeBytes w v).reverse

/-- Little-endian two's-complement encoding of a signed value into `size`
bytes (signed `to_le_bytes`). -/
def encodeIntLe (size : Nat) (i : Int) : Input :=
  toLeBytes size (i % (2 : Int) ^ (8 * size)).toNat

/-- Big-endian two's-complement encoding of a signed value into `size`
bytes (signed `to_be_bytes`). -/
def encodeIntBe (size : Nat) (i : Int) : Input := (encodeIntLe size i).reverse

/-- The input remaining after `k` consecutive successful runs of `child`,
or `none` if some run among the first `k` does not succeed. -/
def iterChild {Output Error : Type} (child : Parser Output Error) :
    Nat → Input → Option Input
  | 0, input => some input
  | k + 1, input =>
    match child input with
    | some (rest, Except.ok _) => iterChild child k rest
    | _ => none

end Parz

namespace Parz

/-- Closed form of `take`: it returns a step exactly when `count` bytes are
available, and that step is always a success. -/
theorem take_eq (count : Nat) (input : Input) :
    take count input =
      if count ≤ input.length then
        some (input.drop count, Except.ok (input.take count))
      else none := by
  by_cases hc : count ≤ input.length
  · rw [if_pos hc]
    unfold take splitAt?
    rw [if_pos hc]
    show (if (List.take count input).length = 0 ∧ count ≠ 0
        then some (List.drop count input, Except.error (TakeError.mk (List.drop count input)))
        else some (List.drop count input, Except.ok (List.take count input))) =
      some (List.drop count input, Except.ok (List.take count input))
    rw [if_neg]
    rintro ⟨h1, h2⟩
    rw [List.length_take] at h1
    omega
  · rw [if_neg hc]
    unfold take splitAt?
    rw [if_neg hc]

/-- Closed form of the `num_impl!` body: a step is returned exactly when
`size` bytes are available, and that step is always a success. -/
theorem numParse_eq {α E : Type} (size : Nat) (conv : Input → α) (mkErr : Input → E)
    (input : Input) :
    numParse size conv mkErr input =
      if size ≤ input.length then
        some (input.drop size, Except.ok (conv (input.take size)))
      else none := by
  by_cases hc : size ≤ input.length
  · rw [if_pos hc]
    unfold numParse splitAt?
    rw [if_pos hc]
    show (if (List.take size input).length = size
        then some (List.drop size input, Except.ok (conv (List.take size input)))
        else some (input, Except.error (mkErr input))) =
      some (List.drop size input, Except.ok (conv (List.take size input)))
    rw [if_pos]
    rw [List.length_take]
    omega
  · rw [if_neg hc]
    unfold numParse splitAt?
    rw [if_neg hc]

/-- A numeric decoder applied to a buffer of exactly its width consumes the
whole buffer and converts it. -/
theorem numParse_exact {α E : Type} (size : Nat) (conv : Input → α) (mkErr : Input → E)
    (input : Input) (h : input.length = size) :
    numParse size conv mkErr input = some ([], Except.ok (conv input)) := by
  rw [numParse_eq, if_pos (le_of_eq h.symm), List.drop_of_length_le (le_of_eq h),
    List.take_of_length_le (le_of_eq h)]

end Parz

namespace Parz

/-- C1: the claimed bounds-check does not exist.  `take(1)` on an empty
buffer, `u16l` on a 1-byte buffer and `tag("ab")` on a 1-byte buffer all
fault (`none`, an out-of-bounds panic in `split_at`) instead of returning a
recoverable error step; only `byte` returns a proper `EndOfInput`-style
error.  The claim holds for `byte` but fails for `take`, `tag` and every
fixed-width numeric decoder. -/
theorem C1_no_bounds_check_before_narrowing :
    take 1 ([] : Input) = none
    ∧ u16l ([0] : Input) = none
    ∧ tag [97, 98] ([97] : Input) = none
    ∧ byte ([] : Input) = some ([], Except.error ByteError.mk) :=
  ⟨rfl, rfl, rfl, rfl⟩

/-- C2: `finish` tests the length of the *original* input rather than of the
child's remainder, so `finish(take(4))` on a 4-byte buffer fails with an
unconsumed-remainder error even though `take(4)` succeeded and left zero
bytes, and on a 5-byte buffer the error carries the whole original input,
not the trailing byte. -/
theorem C2_finish_checks_original_input :
    take 4 ([1, 2, 3, 4] : Input) = some ([], Except.ok [1, 2, 3, 4])
    ∧ finish (take 4) ([1, 2, 3, 4] : Input)
        = some ([1, 2, 3, 4], Except.error (Sum.inr (FinishError.mk [1, 2, 3, 4])))
    ∧ finish (take 4) ([1, 2, 3, 4, 5] : Input)
        = some ([1, 2, 3, 4, 5], Except.error (Sum.inr (FinishError.mk [1, 2, 3, 4, 5]))) :=
  ⟨rfl, rfl, rfl⟩

/-- C4: `take(n)` on a buffer of length `≥ n` succeeds with the `n`-byte
prefix and `len - n` remaining, and `take(0)` always succeeds with an empty
output; but for `n > 0` on a shorter buffer `take(n)` does not fail with
the original buffer — it faults (`none`), as `take 2` on the 1-byte buffer
`[5]` shows. -/
theorem C4_take_faults_on_short_input :
    (∀ (count : Nat) (input : Input), count ≤ input.length →
      take count input = some (input.drop count, Except.ok (input.take count)))
    ∧ (∀ input : Input, take 0 input = some (input, Except.ok []))
    ∧ take 2 ([5] : Input) = none := by
  refine ⟨fun count input h => by rw [take_eq, if_pos h], fun input => ?_, rfl⟩
  rw [take_eq, if_pos (Nat.zero_le _), List.drop_zero, List.take_zero]

/-- C7: `tag(b)` succeeds on an exact prefix match and rolls back on a
mismatch, but on a shortfall (buffer shorter than `b`) it faults (`none`)
through `take`'s unchecked `split_at` instead of failing with the input
unchanged. -/
theorem C7_tag_faults_on_shortfall :
    tag [97, 98] ([97, 98, 99] : Input) = some ([99], Except.ok [97, 98])
    ∧ tag [97, 98] ([97, 99, 100] : Input)
        = some ([97, 99, 100], Except.error (TagError.mk [97, 99, 100]))
    ∧ tag [97, 98] ([98] : Input) = none :=
  ⟨rfl, rfl, rfl⟩

/-- C10: the error branches of `take` and of the numeric-decoder macro body
are unreachable — whenever either returns a step at all, that step is a
success, so `TakeError` and the per-decoder error values are never
delivered to a caller. -/
theorem C10_error_branches_unreachable :
    (∀ (count : Nat) (input rest : Input) (r : Except TakeError Input),
      take count input = some (rest, r) → ∃ o, r = Except.ok o)
    ∧ (∀ (α E : Type) (size : Nat) (conv : Input → α) (mkErr : Input → E)
        (input rest : Input) (r : Except E α),
      numParse size conv mkErr input = some (rest, r) → ∃ o, r = Except.ok o) := by
  constructor
  · intro count input rest r h
    rw [take_eq] at h
    by_cases hc : count ≤ input.length
    · rw [if_pos hc] at h
      exact ⟨input.take count, ((Prod.mk.injEq _ _ _ _).mp (Option.some.inj h)).2.symm⟩
    · rw [if_neg hc] at h
      exact absurd h (Option.noConfusion)
  · intro α E size conv mkErr input rest r h
    rw [numParse_eq] at h
    by_cases hc : size ≤ input.length
    · rw [if_pos hc] at h
      exact ⟨conv (input.take size), ((Prod.mk.injEq _ _ _ _).mp (Option.some.inj h)).2.symm⟩
    · rw [if_neg hc] at h
      exact absurd h (Option.noConfusion)

/-- C10 witness: at `take 1 [5]` the hypothesis holds and the returned
result is a success. -/
theorem C10_witness :
    take 1 ([5] : Input) = some ([], Except.ok [5])
    ∧ ∃ o, (Except.ok [5] : Except TakeError Input) = Except.ok o :=
  ⟨rfl, C10_error_branches_unreachable.1 1 [5] [] (Except.ok [5]) rfl⟩

end Parz

namespace Parz

/-- C6: `opt(p)` cannot itself fail — its error type is uninhabited; where
`p` fails it returns absent at the untouched pre-attempt input, discarding
`p`'s error, and where `p` succeeds it returns present with `p`'s value and
advanced input. -/
theorem C6_opt_never_fails :
    (OptError → False)
    ∧ (∀ (O E : Type) (child : Parser O E) (input rest : Input) (e : E),
        child input = some (rest, Except.error e) →
        opt child input = some (input, Except.ok none))
    ∧ (∀ (O E : Type) (child : Parser O E) (input rest : Input) (x : O),
        child input = some (rest, Except.ok x) →
        opt child input = some (rest, Except.ok (some x))) := by
  refine ⟨?_, ?_, ?_⟩
  · intro e
    cases e
  · intro O E child input rest e h
    unfold opt
    rw [h]
  · intro O E child input rest x h
    unfold opt
    rw [h]

/-- C6 witness: `byte` fails on the empty buffer, and `opt byte` there
succeeds with absent at the untouched input. -/
theorem C6_witness :
    byte ([] : Input) = some ([], Except.error ByteError.mk)
    ∧ opt byte ([] : Input) = some ([], Except.ok none) :=
  ⟨rfl, C6_opt_never_fails.2.1 Byte ByteError byte [] [] ByteError.mk rfl⟩

/-- C9: `and(one, two)` runs `one`, then on success runs `two` on the
remainder; on success of both it returns the paired outputs with `two`'s
remainder; on failure of either stage it returns the pre-`one` input with
that stage's error; and concretely `and(take(2), u16l)` on
`[0x01,0x02,0x03,0x04,0x05]` yields `([0x01,0x02], 0x0403)` with `[0x05]`
remaining. -/
theorem C9_and_sequences_two :
    (∀ (O1 O2 E1 E2 : Type) (one : Parser O1 E1) (two : Parser O2 E2)
        (input rest1 rest2 : Input) (x : O1) (y : O2),
      one input = some (rest1, Except.ok x) → two rest1 = some (rest2, Except.ok y) →
      and one two input = some (rest2, Except.ok (x, y)))
    ∧ (∀ (O1 O2 E1 E2 : Type) (one : Parser O1 E1) (two : Parser O2 E2)
        (input rest1 : Input) (e : E1),
      one input = some (rest1, Except.error e) →
      and one two input = some (input, Except.error (Sum.inl e)))
    ∧ (∀ (O1 O2 E1 E2 : Type) (one : Parser O1 E1) (two : Parser O2 E2)
        (input rest1 rest2 : Input) (x : O1) (e : E2),
      one input = some (rest1, Except.ok x) → two rest1 = some (rest2, Except.error e) →
      and one two input = some (input, Except.error (Sum.inr e)))
    ∧ and (take 2) u16l ([1, 2, 3, 4, 5] : Input)
        = some ([5], Except.ok (([1, 2] : Input), 1027)) := by
  refine ⟨?_, ?_, ?_, rfl⟩
  · intro O1 O2 E1 E2 one two input rest1 rest2 x y h1 h2
    unfold and
    rw [h1]
    show (match two rest1 with
      | none => none
      | some (rest2, Except.ok y) => some (rest2, Except.ok (x, y))
      | some (_, Except.error e) => some (input, Except.error (Sum.inr e))) = _
    rw [h2]
  · intro O1 O2 E1 E2 one two input rest1 e h1
    unfold and
    rw [h1]
  · intro O1 O2 E1 E2 one two input rest1 rest2 x e h1 h2
    unfold and
    rw [h1]
    show (match two rest1 with
      | none => none
      | some (rest2, Except.ok y) => some (rest2, Except.ok (x, y))
      | some (_, Except.error e) => some (input, Except.error (Sum.inr e))) = _
    rw [h2]

/-- C9 witness: both stages succeed on `[1, 2]` with `byte` twice. -/
theorem C9_witness :
    byte ([1, 2] : Input) = some ([2], Except.ok 1)
    ∧ byte ([2] : Input) = some ([], Except.ok 2)
    ∧ and byte byte ([1, 2] : Input) = some ([], Except.ok (1, 2)) :=
  ⟨rfl, rfl, C9_and_sequences_two.1 Byte Byte ByteError ByteError byte byte
    [1, 2] [2] [] 1 2 rfl rfl⟩

/-- C3: `or(one, two)` always attempts `one`; if `one` succeeds, `two` is
attempted from the advanced position, otherwise from the original input;
the step returned carries the pair of optional outputs, and every step it
returns is a success — in particular a failure could only ever arise as
`two`'s propagated error, and in fact the code never builds one at all. -/
theorem C3_or_attempts_both :
    (∀ (O1 O2 E1 E2 : Type) (one : Parser O1 E1) (two : Parser O2 E2)
        (input rest1 rest2 : Input) (x : O1) (r2 : Except E2 O2),
      one input = some (rest1, Except.ok x) → two rest1 = some (rest2, r2) →
      or one two input = some (rest2, Except.ok (some x, r2.toOption)))
    ∧ (∀ (O1 O2 E1 E2 : Type) (one : Parser O1 E1) (two : Parser O2 E2)
        (input rest1 rest2 : Input) (e : E1) (r2 : Except E2 O2),
      one input = some (rest1, Except.error e) → two input = some (rest2, r2) →
      or one two input = some (rest2, Except.ok (none, r2.toOption)))
    ∧ (∀ (O1 O2 E1 E2 : Type) (one : Parser O1 E1) (two : Parser O2 E2)
        (input : Input), one input = none → or one two input = none)
    ∧ (∀ (O1 O2 E1 E2 : Type) (one : Parser O1 E1) (two : Parser O2 E2)
        (input : Input) (s : Step (Option O1 × Option O2) E2),
      or one two input = some s → ∃ p, s.2 = Except.ok p) := by
  refine ⟨?_, ?_, ?_, ?_⟩
  · intro O1 O2 E1 E2 one two input rest1 rest2 x r2 h1 h2
    unfold or
    rw [h1]
    show (match two rest1 with
      | none => none
      | some (rest2, result2) =>
        some (rest2, Except.ok ((Except.ok x).toOption, result2.toOption))) = _
    rw [h2]
    rfl
  · intro O1 O2 E1 E2 one two input rest1 rest2 e r2 h1 h2
    unfold or
    rw [h1]
    show (match two input with
      | none => none
      | some (rest2, result2) =>
        some (rest2, Except.ok ((Except.error e : Except E1 O1).toOption, result2.toOption))) = _
    rw [h2]
    rfl
  · intro O1 O2 E1 E2 one two input h1
    unfold or
    rw [h1]
  · intro O1 O2 E1 E2 one two input s h
    unfold or at h
    split at h
    · exact absurd h (Option.noConfusion)
    · split at h
      · exact absurd h (Option.noConfusion)
      · obtain rfl := Option.some.inj h
        exact ⟨_, rfl⟩

/-- C3 witness: `one` succeeds on `[5]`, `two` then fails on the remainder
`[]`, and `or` still returns a success carrying `(some 5, none)`. -/
theorem C3_witness :
    byte ([5] : Input) = some ([], Except.ok 5)
    ∧ byte ([] : Input) = some ([], Except.error ByteError.mk)
    ∧ or byte byte ([5] : Input) = some ([], Except.ok (some 5, none)) :=
  ⟨rfl, rfl, C3_or_attempts_both.1 Byte Byte ByteError ByteError byte byte
    [5] [] [] 5 (Except.error ByteError.mk) rfl rfl⟩

end Parz

namespace Parz

/-- If the child succeeds `k` more times and then fails, the `seq` loop
returns the saved `before` input and an error recording the failure point,
the absolute iteration index, and the child's error. -/
theorem seqGo_fail {Output ChildError : Type} (child : Parser Output ChildError)
    (k : Nat) :
    ∀ (n s : Nat) (before input ik rest : Input) (out : List Output) (e : ChildError),
      iterChild child k input = some ik → child ik = some (rest, Except.error e) →
      k < n →
      seqGo child before n s input out
        = some (before, Except.error (SeqError.mk ik (s + k) e)) := by
  induction k with
  | zero =>
    intro n s before input ik rest out e hiter hfail hk
    obtain ⟨m, rfl⟩ : ∃ m, n = m + 1 := ⟨n - 1, by omega⟩
    obtain rfl : input = ik := Option.some.inj hiter
    unfold seqGo
    rw [hfail]
    rfl
  | succ k ih =>
    intro n s before input ik rest out e hiter hfail hk
    obtain ⟨m, rfl⟩ : ∃ m, n = m + 1 := ⟨n - 1, by omega⟩
    unfold iterChild at hiter
    cases hchild : child input with
    | none =>
      rw [hchild] at hiter
      exact absurd hiter (Option.noConfusion)
    | some p =>
      obtain ⟨rest0, r0⟩ := p
      rw [hchild] at hiter
      cases r0 with
      | ok x =>
        replace hiter : iterChild child k rest0 = some ik := hiter
        unfold seqGo
        rw [hchild]
        show seqGo child before m (s + 1) rest0 (out ++ [x]) = _
        rw [ih m (s + 1) before rest0 ik rest (out ++ [x]) e hiter hfail (by omega)]
        have : s + 1 + k = s + (k + 1) := by omega
        rw [this]
      | error e0 =>
        exact absurd hiter (Option.noConfusion)

/-- C5: `seq(0, child)` succeeds with the empty sequence no matter what the
child does (no repetition is attempted), and when the `k`-th repetition
(0-indexed) fails, `seq` fails with remaining input equal to the input
before the first repetition and a composite error carrying the input at the
failure point, the index `k`, and the child's error. -/
theorem C5_seq_rolls_back_and_indexes_failure :
    (∀ (Output ChildError : Type) (child : Parser Output ChildError) (input : Input),
      seq 0 child input = some (input, Except.ok []))
    ∧ (∀ (Output ChildError : Type) (child : Parser Output ChildError)
        (count k : Nat) (input ik rest : Input) (e : ChildError),
      k < count → iterChild child k input = some ik →
      child ik = some (rest, Except.error e) →
      seq count child input = some (input, Except.error (SeqError.mk ik k e))) := by
  constructor
  · intro Output ChildError child input
    rfl
  · intro Output ChildError child count k input ik rest e hk hiter hfail
    unfold seq
    rw [seqGo_fail child k count 0 input input ik rest [] e hiter hfail hk]
    rw [Nat.zero_add]

/-- C5 witness: with `byte` as child on the 1-byte buffer `[7]`, the second
repetition (index 1) fails; `seq 2` rolls back to `[7]` and reports index 1
with the failure-point input `[]` and the child's error. -/
theorem C5_witness :
    iterChild byte 1 ([7] : Input) = some []
    ∧ byte ([] : Input) = some ([], Except.error ByteError.mk)
    ∧ seq 2 byte ([7] : Input)
        = some ([7], Except.error (SeqError.mk [] 1 ByteError.mk)) :=
  ⟨rfl, rfl, C5_seq_rolls_back_and_indexes_failure.2 Byte ByteError byte 2 1
    [7] [] [] ByteError.mk (by omega) rfl rfl⟩

end Parz

namespace Parz

/-- The little-endian encoder produces exactly `w` bytes. -/
theorem toLeBytes_length (w : Nat) : ∀ v, (toLeBytes w v).length = w := by
  induction w with
  | zero => intro v; rfl
  | succ w ih =>
    intro v
    rw [toLeBytes, List.length_cons, ih]

/-- Decoding the little-endian encoding of a value below `2^(8w)` recovers
the value. -/
theorem fromLe_toLe (w : Nat) : ∀ v, v < 2 ^ (8 * w) → fromLeBytes (toLeBytes w v) = v := by
  induction w with
  | zero =>
    intro v hv
    have h1 : (2:Nat) ^ (8 * 0) = 1 := by norm_num
    rw [h1] at hv
    have h0 : v = 0 := by omega
    subst h0
    rfl
  | succ w ih =>
    intro v hv
    have hpow : (2:Nat) ^ (8 * (w + 1)) = 2 ^ (8 * w) * 256 := by
      rw [Nat.mul_succ, pow_add]
      norm_num
    have hdiv : v / 256 < 2 ^ (8 * w) := by
      rw [hpow] at hv
      omega
    simp only [toLeBytes, fromLeBytes]
    rw [ih (v / 256) hdiv]
    omega

/-- An unsigned little-endian decoder inverts the little-endian encoder. -/
theorem roundLe {E : Type} (size : Nat) (mkErr : Input → E) (v : Nat)
    (hv : v < 2 ^ (8 * size)) :
    numParse size fromLeBytes mkErr (toLeBytes size v) = some ([], Except.ok v) := by
  rw [numParse_exact size fromLeBytes mkErr _ (toLeBytes_length size v),
    fromLe_toLe size v hv]

/-- An unsigned big-endian decoder inverts the big-endian encoder. -/
theorem roundBe {E : Type} (size : Nat) (mkErr : Input → E) (v : Nat)
    (hv : v < 2 ^ (8 * size)) :
    numParse size fromBeBytes mkErr (toBeBytes size v) = some ([], Except.ok v) := by
  have hlen : (toBeBytes size v).length = size := by
    rw [toBeBytes, List.length_reverse, toLeBytes_length]
  rw [numParse_exact size fromBeBytes mkErr _ hlen]
  show some ([], Except.ok (fromLeBytes (toLeBytes size v).reverse.reverse))
    = some ([], Except.ok v)
  rw [List.reverse_reverse, fromLe_toLe size v hv]

/-- Reading back a two's-complement-reduced value recovers the signed value
when it is in range. -/
theorem toSigned_twos (b : Nat) (i : Int) (h1 : -(2 ^ b) ≤ i) (h2 : i < 2 ^ b) :
    toSigned (b + 1) ((i % (2:Int) ^ (b + 1)).toNat) = i := by
  have hpow : (2:Int) ^ (b + 1) = 2 ^ b * 2 := by rw [pow_succ]
  have hbpos : (0:Int) < 2 ^ b := by positivity
  have hcast : ((2 ^ b : Nat) : Int) = (2:Int) ^ b := by push_cast; rfl
  rcases le_or_lt 0 i with hi | hi
  · have hmod : i % (2:Int) ^ (b + 1) = i := Int.emod_eq_of_lt hi (by linarith)
    rw [hmod]
    unfold toSigned
    rw [Nat.add_sub_cancel, if_pos]
    · exact Int.toNat_of_nonneg hi
    · have h3 : (i.toNat : Int) < ((2 ^ b : Nat) : Int) := by
        rw [Int.toNat_of_nonneg hi, hcast]
        linarith
      exact_mod_cast h3
  · have hmod : i % (2:Int) ^ (b + 1) = i + 2 ^ (b + 1) := by
      have h3 : (i + 2 ^ (b + 1) * 1) % (2 ^ (b + 1)) = i % (2 ^ (b + 1)) :=
        Int.add_mul_emod_self_left i (2 ^ (b + 1)) 1
      rw [mul_one] at h3
      rw [← h3, Int.emod_eq_of_lt (by linarith) (by linarith)]
    rw [hmod]
    unfold toSigned
    rw [Nat.add_sub_cancel, if_neg]
    · rw [Int.toNat_of_nonneg (by linarith)]
      ring
    · intro hcond
      have h3 : ((i + 2 ^ (b + 1)).toNat : Int) < ((2 ^ b : Nat) : Int) := by
        exact_mod_cast hcond
      rw [Int.toNat_of_nonneg (by linarith), hcast] at h3
      linarith

/-- A signed little-endian decoder inverts the two's-complement
little-endian encoder on in-range values. -/
theorem roundSignedLe {E : Type} (b size : Nat) (mkErr : Input → E)
    (hsz : 8 * size = b + 1) (i : Int)
    (h1 : -(2 ^ b) ≤ i) (h2 : i < 2 ^ b) :
    numParse size (fun out => toSigned (8 * size) (fromLeBytes out)) mkErr
      (encodeIntLe size i) = some ([], Except.ok i) := by
  have hnn : 0 ≤ i % (2:Int) ^ (8 * size) := Int.emod_nonneg i (ne_of_gt (by positivity))
  have hlt : i % (2:Int) ^ (8 * size) < (2:Int) ^ (8 * size) :=
    Int.emod_lt_of_pos i (by positivity)
  have hcast : ((2 ^ (8 * size) : Nat) : Int) = (2:Int) ^ (8 * size) := by push_cast; rfl
  have hv : (i % (2:Int) ^ (8 * size)).toNat < 2 ^ (8 * size) := by
    have h3 : ((i % (2:Int) ^ (8 * size)).toNat : Int) < ((2 ^ (8 * size) : Nat) : Int) := by
      rw [Int.toNat_of_nonneg hnn, hcast]
      exact hlt
    exact_mod_cast h3
  unfold encodeIntLe
  rw [numParse_exact size _ mkErr _ (toLeBytes_length size _)]
  show some ([], Except.ok (toSigned (8 * size)
      (fromLeBytes (toLeBytes size ((i % (2:Int) ^ (8 * size)).toNat)))))
    = some ([], Except.ok i)
  rw [fromLe_toLe size _ hv, hsz, toSigned_twos b i h1 h2]

/-- A signed big-endian decoder inverts the two's-complement big-endian
encoder on in-range values. -/
theorem roundSignedBe {E : Type} (b size : Nat) (mkErr : Input → E)
    (hsz : 8 * size = b + 1) (i : Int)
    (h1 : -(2 ^ b) ≤ i) (h2 : i < 2 ^ b) :
    numParse size (fun out => toSigned (8 * size) (fromBeBytes out)) mkErr
      (encodeIntBe size i) = some ([], Except.ok i) := by
  have hnn : 0 ≤ i % (2:Int) ^ (8 * size) := Int.emod_nonneg i (ne_of_gt (by positivity))
  have hlt : i % (2:Int) ^ (8 * size) < (2:Int) ^ (8 * size) :=
    Int.emod_lt_of_pos i (by positivity)
  have hcast : ((2 ^ (8 * size) : Nat) : Int) = (2:Int) ^ (8 * size) := by push_cast; rfl
  have hv : (i % (2:Int) ^ (8 * size)).toNat < 2 ^ (8 * size) := by
    have h3 : ((i % (2:Int) ^ (8 * size)).toNat : Int) < ((2 ^ (8 * size) : Nat) : Int) := by
      rw [Int.toNat_of_nonneg hnn, hcast]
      exact hlt
    exact_mod_cast h3
  unfold encodeIntBe encodeIntLe
  have hlen : ((toLeBytes size ((i % (2:Int) ^ (8 * size)).toNat)).reverse).length = size := by
    rw [List.length_reverse, toLeBytes_length]
  rw [numParse_exact size _ mkErr _ hlen]
  show some ([], Except.ok (toSigned (8 * size)
      (fromLeBytes (toLeBytes size ((i % (2:Int) ^ (8 * size)).toNat)).reverse.reverse)))
    = some ([], Except.ok i)
  rw [List.reverse_reverse, fromLe_toLe size _ hv, hsz, toSigned_twos b i h1 h2]

end Parz

namespace Parz

/-- C8: encoding a value into its fixed-width byte representation in a given
byte order and applying the matching decoder yields exactly the value with
zero bytes remaining, for every integer decoder (unsigned and signed
two's-complement, both byte orders) and every float decoder (values taken
as IEEE-754 bit patterns, both byte orders). -/
theorem C8_encode_decode_roundtrip :
    (∀ v : Nat, v < 2 ^ 16 → u16l (toLeBytes 2 v) = some ([], Except.ok v))
    ∧ (∀ v : Nat, v < 2 ^ 16 → u16b (toBeBytes 2 v) = some ([], Except.ok v))
    ∧ (∀ i : Int, -(2 ^ 15) ≤ i → i < 2 ^ 15 →
        i16l (encodeIntLe 2 i) = some ([], Except.ok i))
    ∧ (∀ i : Int, -(2 ^ 15) ≤ i → i < 2 ^ 15 →
        i16b (encodeIntBe 2 i) = some ([], Except.ok i))
    ∧ (∀ v : Nat, v < 2 ^ 32 → u32l (toLeBytes 4 v) = some ([], Except.ok v))
    ∧ (∀ v : Nat, v < 2 ^ 32 → u32b (toBeBytes 4 v) = some ([], Except.ok v))
    ∧ (∀ i : Int, -(2 ^ 31) ≤ i → i < 2 ^ 31 →
        i32l (encodeIntLe 4 i) = some ([], Except.ok i))
    ∧ (∀ i : Int, -(2 ^ 31) ≤ i → i < 2 ^ 31 →
        i32b (encodeIntBe 4 i) = some ([], Except.ok i))
    ∧ (∀ v : Nat, v < 2 ^ 64 → u64l (toLeBytes 8 v) = some ([], Except.ok v))
    ∧ (∀ v : Nat, v < 2 ^ 64 → u64b (toBeBytes 8 v) = some ([], Except.ok v))
    ∧ (∀ i : Int, -(2 ^ 63) ≤ i → i < 2 ^ 63 →
        i64l (encodeIntLe 8 i) = some ([], Except.ok i))
    ∧ (∀ i : Int, -(2 ^ 63) ≤ i → i < 2 ^ 63 →
        i64b (encodeIntBe 8 i) = some ([], Except.ok i))
    ∧ (∀ v : Nat, v < 2 ^ 128 → u128l (toLeBytes 16 v) = some ([], Except.ok v))
    ∧ (∀ v : Nat, v < 2 ^ 128 → u128b (toBeBytes 16 v) = some ([], Except.ok v))
    ∧ (∀ i : Int, -(2 ^ 127) ≤ i → i < 2 ^ 127 →
        i128l (encodeIntLe 16 i) = some ([], Except.ok i))
    ∧ (∀ i : Int, -(2 ^ 127) ≤ i → i < 2 ^ 127 →
        i128b (encodeIntBe 16 i) = some ([], Except.ok i))
    ∧ (∀ v : Nat, v < 2 ^ 32 → f32l (toLeBytes 4 v) = some ([], Except.ok v))
    ∧ (∀ v : Nat, v < 2 ^ 32 → f32b (toBeBytes 4 v) = some ([], Except.ok v))
    ∧ (∀ v : Nat, v < 2 ^ 64 → f64l (toLeBytes 8 v) = some ([], Except.ok v))
    ∧ (∀ v : Nat, v < 2 ^ 64 → f64b (toBeBytes 8 v) = some ([], Except.ok v)) :=
  ⟨fun v hv => roundLe 2 U16LError.mk v hv,
    fun v hv => roundBe 2 U16BError.mk v hv,
    fun i h1 h2 => roundSignedLe 15 2 I16LError.mk (by norm_num) i h1 h2,
    fun i h1 h2 => roundSignedBe 15 2 I16BError.mk (by norm_num) i h1 h2,
    fun v hv => roundLe 4 U32LError.mk v hv,
    fun v hv => roundBe 4 U32BError.mk v hv,
    fun i h1 h2 => roundSignedLe 31 4 I32LError.mk (by norm_num) i h1 h2,
    fun i h1 h2 => roundSignedBe 31 4 I32BError.mk (by norm_num) i h1 h2,
    fun v hv => roundLe 8 U64LError.mk v hv,
    fun v hv => roundBe 8 U64BError.mk v hv,
    fun i h1 h2 => roundSignedLe 63 8 I64LError.mk (by norm_num) i h1 h2,
    fun i h1 h2 => roundSignedBe 63 8 I64BError.mk (by norm_num) i h1 h2,
    fun v hv => roundLe 16 U128LError.mk v hv,
    fun v hv => roundBe 16 U128BError.mk v hv,
    fun i h1 h2 => roundSignedLe 127 16 I128LError.mk (by norm_num) i h1 h2,
    fun i h1 h2 => roundSignedBe 127 16 I128BError.mk (by norm_num) i h1 h2,
    fun v hv => roundLe 4 F32LError.mk v hv,
    fun v hv => roundBe 4 F32BError.mk v hv,
    fun v hv => roundLe 8 F64LError.mk v hv,
    fun v hv => roundBe 8 F64BError.mk v hv⟩

/-- C8 witness: 513 = 0x0201 encodes little-endian to `[1, 2]` and `u16l`
decodes it back with nothing remaining. -/
theorem C8_witness :
    (513 : Nat) < 2 ^ 16
    ∧ u16l (toLeBytes 2 513) = some ([], Except.ok 513) :=
  ⟨by norm_num, C8_encode_decode_roundtrip.1 513 (by norm_num)⟩

end Parz

namespace Parz

/-- C4 witness: on the 3-byte buffer `[1, 2, 3]`, `take 2` succeeds with
the 2-byte prefix and 1 byte remaining. -/
theorem C4_witness :
    (2 : Nat) ≤ ([1, 2, 3] : Input).length
    ∧ take 2 ([1, 2, 3] : Input) = some ([3], Except.ok [1, 2]) :=
  ⟨by norm_num, C4_take_faults_on_short_input.1 2 [1, 2, 3] (by norm_num)⟩

end Parz
